/-
Verification of the bulk PageSpeed tester (src/app.py) against its
natural-language specification.

Shallow embedding conventions:
- Python strings that undergo character-level processing (the URL
  normalizer) are modelled as `List Char`; strings that are only carried
  around opaquely (urls, devices, error messages) use Lean `String`.
- Python floats are modelled as rationals (`ℚ`); the float arithmetic the
  program performs (1.5 doubling, score * 100) is exact in binary floats,
  so the rational model agrees with the float semantics on these paths.
- The JSON response dictionary is modelled as a structure of `Option`
  fields: `none` is an absent key (`dict.get` default path).  JSON `null`
  values for the inner keys are not modelled; in the program they would
  raise inside the `try` and fall into the generic error path.
- One call to the external API is one value of `Response`: a decoded JSON
  body, an HTTP status error (`requests.HTTPError`, carrying the response
  status code when present), or any other exception (connection error,
  timeout, JSON decode failure).  A whole client behaviour is a function
  `ℕ → Response` giving the response to the k-th call (0-indexed).
-/
import Mathlib

namespace PageSpeed

/-! ## Data model: API response (the JSON shape run_with_backoff reads,
src/app.py lines 40-51) -/

/-- One entry of `lighthouseResult.audits`: optional `displayValue`. -/
structure AuditEntry where
  displayValue : Option String
deriving DecidableEq

/-- `lighthouseResult.categories.performance`: optional `score` fraction. -/
structure PerfCategory where
  score : Option ℚ
deriving DecidableEq

/-- `lighthouseResult.categories`. -/
structure Categories where
  performance : Option PerfCategory
deriving DecidableEq

/-- `lighthouseResult.audits`, restricted to the four audit ids the program
reads. -/
structure Audits where
  firstContentfulPaint : Option AuditEntry
  largestContentfulPaint : Option AuditEntry
  totalBlockingTime : Option AuditEntry
  cumulativeLayoutShift : Option AuditEntry
deriving DecidableEq

/-- `lighthouseResult`. -/
structure LighthouseResult where
  categories : Option Categories
  audits : Option Audits
deriving DecidableEq

/-- The decoded JSON body returned by `call_pagespeed`. -/
structure PSResponse where
  lighthouseResult : Option LighthouseResult
deriving DecidableEq

/-- The empty dict `{}` used as `dict.get` default. -/
def AuditEntry.empty : AuditEntry := ⟨none⟩

def PerfCategory.empty : PerfCategory := ⟨none⟩

def Categories.empty : Categories := ⟨none⟩

def Audits.empty : Audits := ⟨none, none, none, none⟩

def LighthouseResult.empty : LighthouseResult := ⟨none, none⟩

/-! ## Data model: Outcome (the dict returned by run_with_backoff) -/

/-- Value of the "Performance Score" key: an integer score, Python `None`,
or the string sentinel "Error". -/
inductive PerfVal where
  | score (n : ℤ)
  | null
  | error
deriving DecidableEq

/-- The result record for one (url, device) pair. -/
structure Outcome where
  url : String
  device : String
  performanceScore : PerfVal
  fcp : String
  lcp : String
  tbt : String
  cls : String
deriving DecidableEq

/-- The result of one client call (one iteration of the `try` body):
a decoded success body, an `requests.HTTPError` with the status code read
by `getattr(e.response, "status_code", None)`, or any other exception. -/
inductive Response where
  | success (data : PSResponse)
  | httpError (code : Option ℕ) (msg : String)
  | failure (msg : String)
deriving DecidableEq

/-! ## run_with_backoff (src/app.py lines 35-60) -/

/-- `code in (429, 500, 502, 503, 504)` (line 54); `None` is in no tuple. -/
def transientCode (code : Option ℕ) : Bool :=
  code = some 429 || code = some 500 || code = some 502 || code = some 503 ||
    code = some 504

/-- Python `round` on our rational model of floats: round half to even. -/
def pyRound (q : ℚ) : ℤ :=
  if q - q.floor < 1 / 2 then q.floor
  else if 1 / 2 < q - q.floor then q.floor + 1
  else if q.floor % 2 = 0 then q.floor else q.floor + 1

/-- Python `str` of the status code slot in `f"HTTP {code}: {e}"`:
`str(None)` is `"None"`. -/
def codeStr (code : Option ℕ) : String :=
  match code with
  | some n => toString n
  | none => "None"

/-- Lines 40-51: build the success record from the decoded body, with the
`dict.get` default chain. -/
def mkSuccessOutcome (url device : String) (data : PSResponse) : Outcome :=
  let lh := data.lighthouseResult.getD LighthouseResult.empty
  let cats := lh.categories.getD Categories.empty
  let audits := lh.audits.getD Audits.empty
  let perf := (cats.performance.getD PerfCategory.empty).score
  { url := url, device := device
    performanceScore :=
      match perf with
      | some q => PerfVal.score (pyRound (q * 100))
      | none => PerfVal.null
    fcp := ((audits.firstContentfulPaint.getD AuditEntry.empty).displayValue).getD ""
    lcp := ((audits.largestContentfulPaint.getD AuditEntry.empty).displayValue).getD ""
    tbt := ((audits.totalBlockingTime.getD AuditEntry.empty).displayValue).getD ""
    cls := ((audits.cumulativeLayoutShift.getD AuditEntry.empty).displayValue).getD "" }

/-- Lines 56-57: the error record for an HTTPError that is not retried. -/
def mkHttpErrorOutcome (url device : String) (code : Option ℕ) (msg : String) :
    Outcome :=
  { url := url, device := device, performanceScore := PerfVal.error
    fcp := "HTTP " ++ codeStr code ++ ": " ++ msg
    lcp := "", tbt := "", cls := "" }

/-- Lines 59-60: the error record for any other exception. -/
def mkFailureOutcome (url device : String) (msg : String) : Outcome :=
  { url := url, device := device, performanceScore := PerfVal.error
    fcp := "Request failed: " ++ msg
    lcp := "", tbt := "", cls := "" }

/-- The `while True` loop of `run_with_backoff`, lines 37-60.  `attempt` and
`wait` are the loop state; `rem` is `retries - attempt`, kept in sync by the
caller, so the guard `attempt < retries` of line 54 is `rem > 0` (the
`rem + 1` pattern).  Returns the outcome, the total number of client calls
made, and the list of backoff sleep durations in order. -/
def goBackoff (url device : String) (client : ℕ → Response) (wait : ℚ)
    (attempt : ℕ) (rem : ℕ) : Outcome × ℕ × List ℚ :=
  match client attempt with
  | Response.success data => (mkSuccessOutcome url device data, attempt + 1, [])
  | Response.httpError code msg =>
    match rem with
    | r + 1 =>
      if transientCode code then
        let res := goBackoff url device client (wait * 2) (attempt + 1) r
        (res.1, res.2.1, wait :: res.2.2)
      else (mkHttpErrorOutcome url device code msg, attempt + 1, [])
    | 0 => (mkHttpErrorOutcome url device code msg, attempt + 1, [])
  | Response.failure msg => (mkFailureOutcome url device msg, attempt + 1, [])

/-- `run_with_backoff(url, device, key, retries)` (lines 35-36): state starts
at `attempt = 0`, `wait = 1.5`.  The API key is absorbed into `client`. -/
def run_with_backoff (url device : String) (client : ℕ → Response)
    (retries : ℕ) : Outcome × ℕ × List ℚ :=
  goBackoff url device client 1.5 0 retries

/-! ## Batch runner (src/app.py lines 71-78): nested for loops appending
one outcome per (url, device) pair, url loop outer, device loop inner. -/

/-- The `Run Test` double loop.  `client url d` is the response sequence the
external API would give for that pair. -/
def runTest (urls devices : List String)
    (client : String → String → ℕ → Response) (retries : ℕ) : List Outcome :=
  match urls with
  | [] => []
  | u :: us =>
    devices.map (fun d => (run_with_backoff u d (client u d) retries).1) ++
      runTest us devices client retries

/-! ## URL normalizer (src/app.py lines 62-67) and is_valid_url (lines 22-27).
Python strings are `List Char` here. -/

/-- The character class stripped by Python `str.strip()` with no argument
(Unicode whitespace as Python classifies it). -/
def pyIsSpace (c : Char) : Bool :=
  (9 ≤ c.toNat && c.toNat ≤ 13) || (28 ≤ c.toNat && c.toNat ≤ 31) ||
    c.toNat = 32 || c.toNat = 133 || c.toNat = 160 || c.toNat = 0x1680 ||
    (0x2000 ≤ c.toNat && c.toNat ≤ 0x200a) || c.toNat = 0x2028 ||
    c.toNat = 0x2029 || c.toNat = 0x202f || c.toNat = 0x205f ||
    c.toNat = 0x3000

/-- Strip characters satisfying `p` from both ends of a list. -/
def stripEnds (p : Char → Bool) (l : List Char) : List Char :=
  ((l.dropWhile p).reverse.dropWhile p).reverse

/-- Python `u.strip()`. -/
def pyStrip (l : List Char) : List Char :=
  stripEnds pyIsSpace l

/-- Line 64: `[u.strip() for u in raw if u.strip()]` — keep the stripped
line when it is non-empty (truthy). -/
def trimNonblank (raw : List (List Char)) : List (List Char) :=
  raw.filterMap (fun u => if pyStrip u = [] then none else some (pyStrip u))

/-- Line 65's test: `u.startswith(("http://", "https://"))`, case sensitive. -/
def startsWithHttp (u : List Char) : Bool :=
  ("http://".data).isPrefixOf u || ("https://".data).isPrefixOf u

/-- Line 65: prepend `https://` when no scheme prefix is present. -/
def prependScheme (u : List Char) : List Char :=
  if startsWithHttp u then u else "https://".data ++ u

/-- Line 66: `list(dict.fromkeys(urls))` — keep first occurrences, in order.
`seen` is the set of keys already inserted. -/
def dedupeAux (seen : List (List Char)) : List (List Char) → List (List Char)
  | [] => []
  | x :: xs =>
    if x ∈ seen then dedupeAux seen xs else x :: dedupeAux (x :: seen) xs

def dedupeKeepFirst (l : List (List Char)) : List (List Char) :=
  dedupeAux [] l

/-! ### urllib.parse.urlparse, restricted to what `is_valid_url` reads:
the `scheme` and `netloc` components.  Modelled on CPython's `urlsplit`:
strip C0-control-or-space characters from both ends, remove ASCII tab and
newlines, split off a `scheme` when the text before the first `:` is a
well-formed scheme, then read `netloc` after a leading `//` up to the next
`/`, `?` or `#`; mismatched square brackets in the netloc raise
`ValueError` (returned here as `none`, which `is_valid_url` catches). -/

/-- CPython's `scheme_chars`: ASCII letters, digits, and `+-.`. -/
def pySchemeChar (c : Char) : Bool :=
  c.isAlpha || c.isDigit || c = '+' || c = '-' || c = '.'

/-- WHATWG C0 control or space: code points up to U+0020. -/
def isC0OrSpace (c : Char) : Bool :=
  c.toNat ≤ 32

/-- The sanitization `urlsplit` applies before parsing. -/
def urlSanitize (l : List Char) : List Char :=
  (stripEnds isC0OrSpace l).filter
    (fun c => !(c = '\t' || c = '\r' || c = '\n'))

/-- Scheme extraction: if the input has a `:` at position `i > 0`, the first
character is an ASCII letter and all of `url[:i]` are scheme characters,
return (lowercased scheme, remainder after the colon); else no scheme. -/
def splitScheme (l : List Char) : List Char × List Char :=
  match l.findIdx? (· = ':') with
  | some i =>
    if 0 < i && (l.take i).all pySchemeChar &&
        (match l.head? with
         | some c => c.isAlpha
         | none => false) then
      ((l.take i).map Char.toLower, l.drop (i + 1))
    else ([], l)
  | none => ([], l)

/-- `_splitnetloc` + the IPv6 bracket check: if the post-scheme text starts
with `//`, netloc runs to the next `/`, `?` or `#`; mismatched `[`/`]`
raises (modelled as `none`). -/
def splitNetloc (rest : List Char) : Option (List Char) :=
  match rest with
  | '/' :: '/' :: tail =>
    let netloc := tail.takeWhile (fun c => !(c = '/' || c = '?' || c = '#'))
    if ('[' ∈ netloc && !(']' ∈ netloc)) || (']' ∈ netloc && !('[' ∈ netloc))
    then none
    else some netloc
  | _ => some []

/-- `urllib.parse.urlparse(u)` projected to `(scheme, netloc)`; `none` when
parsing raises. -/
def pyUrlparse (u : List Char) : Option (List Char × List Char) :=
  let s := urlSanitize u
  let sr := splitScheme s
  match splitNetloc sr.2 with
  | some netloc => some (sr.1, netloc)
  | none => none

/-- `is_valid_url` (lines 22-27): scheme in `("http", "https")` and truthy
netloc; any exception yields `False`. -/
def is_valid_url (u : List Char) : Bool :=
  match pyUrlparse u with
  | some sn =>
    (sn.1 = "http".data || sn.1 = "https".data) && !sn.2.isEmpty
  | none => false

/-- The whole normalization pipeline, lines 64-67, in source order:
trim and drop blanks, prepend the default scheme, de-duplicate keeping
first occurrences, keep only valid URLs. -/
def normalize_urls (raw : List (List Char)) : List (List Char) :=
  (dedupeKeepFirst ((trimNonblank raw).map prependScheme)).filter
    (fun u => is_valid_url u)

/-! ### Projections of the response body, exactly along the key paths the
success branch reads (lines 40-43); used to state the parsing claims. -/

/-- `data.get("lighthouseResult", {}).get("categories", {})
.get("performance", {}).get("score")`. -/
def extractedScore (data : PSResponse) : Option ℚ :=
  (((data.lighthouseResult.getD LighthouseResult.empty).categories.getD
      Categories.empty).performance.getD PerfCategory.empty).score

/-- `data.get("lighthouseResult", {}).get("audits", {})`. -/
def extractedAudits (data : PSResponse) : Audits :=
  (data.lighthouseResult.getD LighthouseResult.empty).audits.getD Audits.empty

/-- `audits.get(<id>, {}).get("displayValue", "")`: the display string when
present, the empty string when absent. -/
def auditDisplay (e : Option AuditEntry) : String :=
  (e.getD AuditEntry.empty).displayValue.getD ""

/-! ## Helper lemmas -/

/-- The executable `Rat.floor` agrees with the floor of the ordered field. -/
theorem ratFloor_eq_intFloor (q : ℚ) : q.floor = ⌊q⌋ := by
  rw [Rat.floor_def', Rat.floor_def]

/-- `pyRound` rounds to a nearest integer: it is within 1/2 of its input. -/
theorem pyRound_nearest (x : ℚ) : |(pyRound x : ℚ) - x| ≤ 1 / 2 := by
  have h1 : (⌊x⌋ : ℚ) ≤ x := Int.floor_le x
  have h2 : x < ⌊x⌋ + 1 := Int.lt_floor_add_one x
  unfold pyRound
  rw [ratFloor_eq_intFloor]
  split_ifs with ha hb hc
  all_goals rw [abs_le]; constructor <;> push_cast at * <;> linarith

theorem goBackoff_calls_le (url device : String) (client : ℕ → Response)
    (wait : ℚ) (attempt rem : ℕ) :
    (goBackoff url device client wait attempt rem).2.1 ≤ attempt + rem + 1 := by
  induction rem generalizing wait attempt with
  | zero =>
    unfold goBackoff
    cases client attempt <;> simp
  | succ r ih =>
    unfold goBackoff
    cases client attempt with
    | success data => simp
    | httpError code msg =>
      by_cases h : transientCode code
      · have := ih (wait * 2) (attempt + 1)
        simp only [h, if_true]
        omega
      · simp [h]
    | failure msg => simp

theorem goBackoff_calls_ge (url device : String) (client : ℕ → Response)
    (wait : ℚ) (attempt rem : ℕ) :
    attempt + 1 ≤ (goBackoff url device client wait attempt rem).2.1 := by
  induction rem generalizing wait attempt with
  | zero =>
    unfold goBackoff
    cases client attempt <;> simp
  | succ r ih =>
    unfold goBackoff
    cases client attempt with
    | success data => simp
    | httpError code msg =>
      by_cases h : transientCode code
      · have := ih (wait * 2) (attempt + 1)
        simp only [h, if_true]
        omega
      · simp [h]
    | failure msg => simp

/-- The sleeps recorded by the loop: starting from backoff state `wait`,
they are `wait * 2 ^ k` for `k` below the number of retries performed. -/
theorem goBackoff_sleeps (url device : String) (client : ℕ → Response)
    (wait : ℚ) (attempt rem : ℕ) :
    (goBackoff url device client wait attempt rem).2.2 =
      (List.range
          ((goBackoff url device client wait attempt rem).2.1 - (attempt + 1))).map
        (fun k => wait * 2 ^ k) := by
  induction rem generalizing wait attempt with
  | zero =>
    unfold goBackoff
    cases client attempt <;> simp
  | succ r ih =>
    unfold goBackoff
    cases client attempt with
    | success data => simp
    | httpError code msg =>
      by_cases h : transientCode code
      · simp only [h, if_true]
        have hge := goBackoff_calls_ge url device client (wait * 2) (attempt + 1) r
        have ihr := ih (wait * 2) (attempt + 1)
        rw [ihr]
        have hsplit :
            (goBackoff url device client (wait * 2) (attempt + 1) r).2.1 - (attempt + 1)
              = ((goBackoff url device client (wait * 2) (attempt + 1) r).2.1
                  - (attempt + 2)) + 1 := by
          omega
        rw [hsplit, List.range_succ_eq_map, List.map_cons, List.map_map]
        refine congrArg₂ List.cons (by ring) ?_
        refine List.map_congr_left ?_
        intro k _
        simp only [Function.comp_apply]
        rw [pow_succ]
        ring
      · simp [h]
    | failure msg => simp

/-! ### List lemmas for the strip / de-duplicate pipeline -/

theorem dropWhile_self_idem (p : Char → Bool) (l : List Char) :
    (l.dropWhile p).dropWhile p = l.dropWhile p := by
  induction l with
  | nil => rfl
  | cons a l ih =>
    by_cases h : p a <;> simp [List.dropWhile_cons, h, ih]

theorem dropWhile_head_not (p : Char → Bool) (l : List Char) (c : Char)
    (cs : List Char) (h : l.dropWhile p = c :: cs) : p c = false := by
  induction l with
  | nil => simp at h
  | cons a l ih =>
    rw [List.dropWhile_cons] at h
    by_cases ha : p a
    · rw [if_pos ha] at h
      exact ih h
    · rw [if_neg ha] at h
      injection h with h1 h2
      subst h1
      simpa using ha

theorem dropWhile_suffix (p : Char → Bool) (l : List Char) :
    ∃ t, t ++ l.dropWhile p = l := by
  induction l with
  | nil => exact ⟨[], rfl⟩
  | cons a l ih =>
    by_cases h : p a
    · obtain ⟨t, ht⟩ := ih
      exact ⟨a :: t, by simp [List.dropWhile_cons, h, ht]⟩
    · exact ⟨[], by simp [List.dropWhile_cons, h]⟩

theorem stripEnds_eq_self (p : Char → Bool) (l : List Char)
    (h1 : l.dropWhile p = l) (h2 : l.reverse.dropWhile p = l.reverse) :
    stripEnds p l = l := by
  unfold stripEnds
  rw [h1, h2, List.reverse_reverse]

theorem stripEnds_reverse_dropWhile (p : Char → Bool) (l : List Char) :
    (stripEnds p l).reverse.dropWhile p = (stripEnds p l).reverse := by
  unfold stripEnds
  rw [List.reverse_reverse]
  exact dropWhile_self_idem p (l.dropWhile p).reverse

/-- The strip result is a prefix of the left-stripped list; in particular a
non-empty strip result starts with the same head. -/
theorem stripEnds_prefix (p : Char → Bool) (l : List Char) :
    ∃ t, stripEnds p l = [] ∨
      (∃ c cs, stripEnds p l = c :: cs ∧ l.dropWhile p = c :: (cs ++ t)) := by
  obtain ⟨t, ht⟩ := dropWhile_suffix p (l.dropWhile p).reverse
  refine ⟨t.reverse, ?_⟩
  cases hr : stripEnds p l with
  | nil => exact Or.inl rfl
  | cons c cs =>
    refine Or.inr ⟨c, cs, rfl, ?_⟩
    have h3 := congrArg List.reverse ht
    rw [List.reverse_append, List.reverse_reverse] at h3
    have h4 : l.dropWhile p = stripEnds p l ++ t.reverse := by
      unfold stripEnds
      exact h3.symm
    rw [h4, hr]
    simp

theorem stripEnds_dropWhile (p : Char → Bool) (l : List Char) :
    (stripEnds p l).dropWhile p = stripEnds p l := by
  obtain ⟨t, h⟩ := stripEnds_prefix p l
  rcases h with h | ⟨c, cs, h1, h2⟩
  · rw [h]
    rfl
  · rw [h1]
    have hc : p c = false := dropWhile_head_not p l c (cs ++ t) h2
    simp [List.dropWhile_cons, hc]

theorem stripEnds_idem (p : Char → Bool) (l : List Char) :
    stripEnds p (stripEnds p l) = stripEnds p l :=
  stripEnds_eq_self p _ (stripEnds_dropWhile p l) (stripEnds_reverse_dropWhile p l)

/-- A strip fixed point is a fixed point of both one-sided drops. -/
theorem stripEnds_fix_parts (p : Char → Bool) (l : List Char)
    (h : stripEnds p l = l) :
    l.dropWhile p = l ∧ l.reverse.dropWhile p = l.reverse := by
  obtain ⟨t, ht⟩ := dropWhile_suffix p l
  obtain ⟨t2, ht2⟩ := dropWhile_suffix p (l.dropWhile p).reverse
  have hlen : (stripEnds p l).length ≤ (l.dropWhile p).length := by
    unfold stripEnds
    rw [List.length_reverse]
    have := congrArg List.length ht2
    rw [List.length_append, List.length_reverse] at this
    omega
  have hlen2 : (l.dropWhile p).length ≤ l.length := by
    have := congrArg List.length ht
    rw [List.length_append] at this
    omega
  have hlendw : (l.dropWhile p).length = l.length := by
    rw [h] at hlen
    omega
  have htnil : t = [] := by
    have := congrArg List.length ht
    rw [List.length_append, hlendw] at this
    have : t.length = 0 := by omega
    exact List.length_eq_zero.mp this
  have hdw : l.dropWhile p = l := by
    rw [htnil] at ht
    simpa using ht
  refine ⟨hdw, ?_⟩
  unfold stripEnds at h
  rw [hdw] at h
  exact List.reverse_eq_iff.mp h

/-- Prepending text with a non-strippable head to a non-empty strip fixed
point gives a strip fixed point. -/
theorem stripEnds_append_of (p : Char → Bool) (c : Char) (cs t : List Char)
    (hc : p c = false) (ht : t ≠ []) (hts : stripEnds p t = t) :
    stripEnds p (c :: cs ++ t) = c :: cs ++ t := by
  obtain ⟨-, htr⟩ := stripEnds_fix_parts p t hts
  apply stripEnds_eq_self
  · simp [List.dropWhile_cons, hc]
  · rw [List.reverse_append]
    obtain ⟨d, ds, hd⟩ : ∃ d ds, t.reverse = d :: ds := by
      cases hrev : t.reverse with
      | nil =>
        exact absurd (by simpa using congrArg List.reverse hrev) ht
      | cons d ds => exact ⟨d, ds, rfl⟩
    have hpd : p d = false := by
      rw [hd] at htr
      exact dropWhile_head_not p (d :: ds) d ds htr
    rw [hd]
    simp [List.dropWhile_cons, hpd]

/-- Every element the trim stage emits is a non-empty strip fixed point. -/
theorem trimNonblank_mem (raw : List (List Char)) (u : List Char)
    (h : u ∈ trimNonblank raw) : pyStrip u = u ∧ u ≠ [] := by
  unfold trimNonblank at h
  rw [List.mem_filterMap] at h
  obtain ⟨x, -, hx⟩ := h
  by_cases hb : pyStrip x = []
  · simp [hb] at hx
  · rw [if_neg hb] at hx
    injection hx with hx
    subst hx
    exact ⟨stripEnds_idem pyIsSpace x, hb⟩

/-- The prepend stage preserves strip fixed points and non-emptiness, and
always emits a scheme-prefixed string. -/
theorem prependScheme_mem (v : List Char) (hv : pyStrip v = v ∧ v ≠ []) :
    pyStrip (prependScheme v) = prependScheme v ∧ prependScheme v ≠ [] ∧
      startsWithHttp (prependScheme v) = true := by
  unfold prependScheme
  by_cases hs : startsWithHttp v
  · rw [if_pos hs]
    exact ⟨hv.1, hv.2, hs⟩
  · rw [if_neg hs]
    have hfix : pyStrip ("https://".data ++ v) = "https://".data ++ v := by
      have hsplit : "https://".data ++ v = 'h' :: "ttps://".data ++ v := rfl
      rw [hsplit]
      exact stripEnds_append_of pyIsSpace 'h' ("ttps://".data) v (by decide)
        hv.2 hv.1
    refine ⟨hfix, by simp, ?_⟩
    unfold startsWithHttp
    have hp : ("https://".data).isPrefixOf ("https://".data ++ v) = true := by
      rw [List.isPrefixOf_iff_prefix]
      exact List.prefix_append _ _
    simp [hp]

theorem dedupeAux_subset (seen l : List (List Char)) (x : List Char)
    (h : x ∈ dedupeAux seen l) : x ∈ l := by
  induction l generalizing seen with
  | nil => simp [dedupeAux] at h
  | cons a l ih =>
    unfold dedupeAux at h
    by_cases ha : a ∈ seen
    · rw [if_pos ha] at h
      exact List.mem_cons_of_mem a (ih seen h)
    · rw [if_neg ha] at h
      rcases List.mem_cons.mp h with h | h
      · exact h ▸ List.mem_cons_self a l
      · exact List.mem_cons_of_mem a (ih (a :: seen) h)

theorem dedupeAux_not_mem_seen (seen l : List (List Char)) (x : List Char)
    (h : x ∈ dedupeAux seen l) : x ∉ seen := by
  induction l generalizing seen with
  | nil => simp [dedupeAux] at h
  | cons a l ih =>
    unfold dedupeAux at h
    by_cases ha : a ∈ seen
    · rw [if_pos ha] at h
      exact ih seen h
    · rw [if_neg ha] at h
      rcases List.mem_cons.mp h with h | h
      · exact h ▸ ha
      · intro hx
        exact ih (a :: seen) h (List.mem_cons_of_mem a hx)

theorem dedupeAux_nodup (seen l : List (List Char)) :
    (dedupeAux seen l).Nodup := by
  induction l generalizing seen with
  | nil => simp [dedupeAux]
  | cons a l ih =>
    unfold dedupeAux
    by_cases ha : a ∈ seen
    · rw [if_pos ha]
      exact ih seen
    · rw [if_neg ha]
      refine List.nodup_cons.mpr ⟨?_, ih (a :: seen)⟩
      intro hmem
      exact dedupeAux_not_mem_seen (a :: seen) l a hmem (List.mem_cons_self a seen)

theorem dedupeAux_eq_self (seen l : List (List Char)) (hnd : l.Nodup)
    (hdis : ∀ x ∈ l, x ∉ seen) : dedupeAux seen l = l := by
  induction l generalizing seen with
  | nil => rfl
  | cons a l ih =>
    unfold dedupeAux
    rw [if_neg (hdis a (List.mem_cons_self a l))]
    congr 1
    refine ih (a :: seen) (List.nodup_cons.mp hnd).2 ?_
    intro x hx
    rw [List.mem_cons]
    push_neg
    refine ⟨?_, hdis x (List.mem_cons_of_mem a hx)⟩
    intro hxa
    exact (List.nodup_cons.mp hnd).1 (hxa ▸ hx)

theorem trimNonblank_eq_self (L : List (List Char)) :
    (∀ u ∈ L, pyStrip u = u ∧ u ≠ []) → trimNonblank L = L := by
  induction L with
  | nil => intro _; rfl
  | cons a L ih =>
    intro h
    obtain ⟨ha1, ha2⟩ := h a (List.mem_cons_self a L)
    unfold trimNonblank
    rw [List.filterMap_cons, ha1, if_neg ha2]
    have hL := ih (fun u hu => h u (List.mem_cons_of_mem a hu))
    unfold trimNonblank at hL
    rw [hL]

theorem map_prependScheme_eq_self (L : List (List Char)) :
    (∀ u ∈ L, startsWithHttp u = true) → L.map prependScheme = L := by
  induction L with
  | nil => intro _; rfl
  | cons a L ih =>
    intro h
    rw [List.map_cons, ih (fun u hu => h u (List.mem_cons_of_mem a hu))]
    unfold prependScheme
    rw [if_pos (h a (List.mem_cons_self a L))]

/-- Every element of the normalizer output is stripped, non-empty,
scheme-prefixed and valid. -/
theorem normalize_mem_invariants (raw : List (List Char)) (u : List Char)
    (h : u ∈ normalize_urls raw) :
    pyStrip u = u ∧ u ≠ [] ∧ startsWithHttp u = true ∧ is_valid_url u = true := by
  unfold normalize_urls at h
  have hval : is_valid_url u = true := List.of_mem_filter h
  have h2 : u ∈ dedupeKeepFirst ((trimNonblank raw).map prependScheme) :=
    List.mem_of_mem_filter h
  have h3 : u ∈ (trimNonblank raw).map prependScheme :=
    dedupeAux_subset [] _ u h2
  rw [List.mem_map] at h3
  obtain ⟨v, hv, hvu⟩ := h3
  have hmem := prependScheme_mem v (trimNonblank_mem raw v hv)
  rw [hvu] at hmem
  exact ⟨hmem.1, hmem.2.1, hmem.2.2, hval⟩

theorem normalize_nodup (raw : List (List Char)) : (normalize_urls raw).Nodup := by
  unfold normalize_urls
  exact (dedupeAux_nodup [] _).filter _

/-! ### Batch runner lemmas -/

theorem runTest_length (urls devices : List String)
    (client : String → String → ℕ → Response) (retries : ℕ) :
    (runTest urls devices client retries).length =
      urls.length * devices.length := by
  induction urls with
  | nil => simp [runTest]
  | cons u us ih =>
    unfold runTest
    rw [List.length_append, List.length_map, ih, List.length_cons, Nat.succ_mul]
    omega

theorem runTest_get (urls devices : List String)
    (client : String → String → ℕ → Response) (retries : ℕ) (i j : ℕ)
    (hi : i < urls.length) (hj : j < devices.length) :
    (runTest urls devices client retries)[i * devices.length + j]? =
      some ((run_with_backoff (urls.get ⟨i, hi⟩) (devices.get ⟨j, hj⟩)
        (client (urls.get ⟨i, hi⟩) (devices.get ⟨j, hj⟩)) retries).1) := by
  induction urls generalizing i with
  | nil => simp at hi
  | cons u us ih =>
    cases i with
    | zero =>
      unfold runTest
      have h0 : 0 * devices.length + j = j := by omega
      rw [h0, List.getElem?_append_left (by simpa using hj)]
      simp [List.getElem?_eq_getElem hj]
    | succ i =>
      unfold runTest
      rw [List.getElem?_append_right (by rw [List.length_map, Nat.succ_mul]; omega)]
      have harith : (i + 1) * devices.length + j -
          (devices.map (fun d => (run_with_backoff u d (client u d) retries).1)).length =
          i * devices.length + j := by
        rw [List.length_map, Nat.succ_mul]
        omega
      rw [harith]
      exact ih i (by simpa using hi)

/-! ## Claims -/

/-- C1: one invocation of the retry orchestrator terminates and returns
exactly one Outcome (here: `run_with_backoff` is a total function into
`Outcome × ℕ × List ℚ`, so termination, a unique Outcome and the absence
of escaping exceptions are by construction), and it makes between 1 and
`maxRetries + 1` client calls for every url, device and client behaviour. -/
theorem run_with_backoff_total (url device : String) (client : ℕ → Response)
    (retries : ℕ) :
    1 ≤ (run_with_backoff url device client retries).2.1 ∧
      (run_with_backoff url device client retries).2.1 ≤ retries + 1 := by
  constructor
  · simpa using goBackoff_calls_ge url device client 1.5 0 retries
  · simpa using goBackoff_calls_le url device client 1.5 0 retries

/-- C2: a client that answers HTTP 503 on every call, with `maxRetries = 2`,
is invoked exactly 3 times and the final Outcome has
Performance Score = "Error". -/
theorem retry_exhaustion_503 (url device msg : String) :
    (run_with_backoff url device
        (fun _ => Response.httpError (some 503) msg) 2).2.1 = 3 ∧
      (run_with_backoff url device
        (fun _ => Response.httpError (some 503) msg) 2).1.performanceScore =
        PerfVal.error := by
  constructor <;>
    simp [run_with_backoff, goBackoff, transientCode, mkHttpErrorOutcome]

/-- C3: a non-transient HTTP status (any code outside
{429, 500, 502, 503, 504}, e.g. 404) on the first call ends the run after
exactly one client call, with no backoff sleep and an error Outcome,
whatever the retry budget. -/
theorem permanent_failure_no_retry (url device : String) (client : ℕ → Response)
    (retries : ℕ) (code : Option ℕ) (msg : String)
    (hcode : transientCode code = false)
    (h0 : client 0 = Response.httpError code msg) :
    (run_with_backoff url device client retries).2.1 = 1 ∧
      (run_with_backoff url device client retries).2.2 = [] ∧
      (run_with_backoff url device client retries).1.performanceScore =
        PerfVal.error := by
  unfold run_with_backoff goBackoff
  rw [h0]
  cases retries <;> simp [hcode, mkHttpErrorOutcome]

/-- Witness for C3: HTTP 404 with `maxRetries = 5` gives a single call. -/
theorem permanent_failure_no_retry_witness :
    (run_with_backoff "https://a.com" "desktop"
        (fun _ => Response.httpError (some 404) "404 Client Error") 5).2.1 = 1 ∧
      (run_with_backoff "https://a.com" "desktop"
        (fun _ => Response.httpError (some 404) "404 Client Error") 5).2.2 = [] ∧
      (run_with_backoff "https://a.com" "desktop"
        (fun _ => Response.httpError (some 404) "404 Client Error")
          5).1.performanceScore = PerfVal.error :=
  permanent_failure_no_retry "https://a.com" "desktop" _ 5 (some 404)
    "404 Client Error" (by decide) rfl

/-- C4: a transport-level failure (any exception other than an HTTP status
error: connection error, timeout, undecodable body) is never retried — one
client call, no sleep, an error Outcome, for every retry budget. -/
theorem transport_failure_no_retry (url device : String) (client : ℕ → Response)
    (retries : ℕ) (msg : String)
    (h0 : client 0 = Response.failure msg) :
    (run_with_backoff url device client retries).2.1 = 1 ∧
      (run_with_backoff url device client retries).2.2 = [] ∧
      (run_with_backoff url device client retries).1.performanceScore =
        PerfVal.error := by
  unfold run_with_backoff goBackoff
  rw [h0]
  simp [mkFailureOutcome]

/-- Witness for C4: a connection reset with budget 7 gives a single call. -/
theorem transport_failure_no_retry_witness :
    (run_with_backoff "https://a.com" "mobile"
        (fun _ => Response.failure "connection reset") 7).2.1 = 1 ∧
      (run_with_backoff "https://a.com" "mobile"
        (fun _ => Response.failure "connection reset") 7).2.2 = [] ∧
      (run_with_backoff "https://a.com" "mobile"
        (fun _ => Response.failure "connection reset") 7).1.performanceScore =
        PerfVal.error :=
  transport_failure_no_retry "https://a.com" "mobile" _ 7 "connection reset" rfl

/-- C5: in any execution, the recorded backoff sleeps are exactly
`1.5 * 2 ^ k` seconds for `k = 0, 1, ...` — the sequence 1.5, 3, 6, ...,
each double the previous, uncapped — with one sleep before each retried
attempt (calls minus one sleeps) and nowhere else. -/
theorem backoff_sleep_schedule (url device : String) (client : ℕ → Response)
    (retries : ℕ) :
    (run_with_backoff url device client retries).2.2 =
      (List.range ((run_with_backoff url device client retries).2.1 - 1)).map
        (fun k => (1.5 : ℚ) * 2 ^ k) := by
  simpa using goBackoff_sleeps url device client 1.5 0 retries

/-- C6: the batch runner yields exactly `N * M` Outcomes, in url-outer /
device-inner input order: the entry at position `i * M + j` is the Outcome
of the i-th url under the j-th device; a failing pair cannot abort or skip
any pair, since this holds for every client behaviour. -/
theorem batch_runner_shape (urls devices : List String)
    (client : String → String → ℕ → Response) (retries : ℕ) (i j : ℕ)
    (hi : i < urls.length) (hj : j < devices.length) :
    (runTest urls devices client retries).length =
      urls.length * devices.length ∧
    (runTest urls devices client retries)[i * devices.length + j]? =
      some ((run_with_backoff (urls.get ⟨i, hi⟩) (devices.get ⟨j, hj⟩)
        (client (urls.get ⟨i, hi⟩) (devices.get ⟨j, hj⟩)) retries).1) :=
  ⟨runTest_length urls devices client retries,
   runTest_get urls devices client retries i j hi hj⟩

/-- Witness for C6: 2 urls × 2 devices under an always-failing client. -/
theorem batch_runner_shape_witness :
    (runTest ["https://a.com", "https://b.com"] ["mobile", "desktop"]
        (fun _ _ _ => Response.failure "boom") 1).length = 2 * 2 ∧
    (runTest ["https://a.com", "https://b.com"] ["mobile", "desktop"]
        (fun _ _ _ => Response.failure "boom") 1)[1 * 2 + 1]? =
      some ((run_with_backoff
        (["https://a.com", "https://b.com"].get ⟨1, by decide⟩)
        (["mobile", "desktop"].get ⟨1, by decide⟩)
        ((fun _ _ _ => Response.failure "boom")
          (["https://a.com", "https://b.com"].get ⟨1, by decide⟩)
          (["mobile", "desktop"].get ⟨1, by decide⟩)) 1).1) :=
  batch_runner_shape ["https://a.com", "https://b.com"] ["mobile", "desktop"]
    (fun _ _ _ => Response.failure "boom") 1 1 1 (by decide) (by decide)

/-- C7: on a successful first response, the Outcome's score is the nested
performance score times 100 rounded to a nearest integer when present,
`None` (not an error, not zero) when absent; and each audit metric is the
response's displayValue when present, the empty string when absent. -/
theorem success_parsing (url device : String) (client : ℕ → Response)
    (retries : ℕ) (data : PSResponse)
    (h0 : client 0 = Response.success data) :
    (∀ q, extractedScore data = some q →
      (run_with_backoff url device client retries).1.performanceScore =
        PerfVal.score (pyRound (q * 100)) ∧
      |(pyRound (q * 100) : ℚ) - q * 100| ≤ 1 / 2) ∧
    (extractedScore data = none →
      (run_with_backoff url device client retries).1.performanceScore =
        PerfVal.null ∧
      (run_with_backoff url device client retries).1.performanceScore ≠
        PerfVal.error ∧
      (run_with_backoff url device client retries).1.performanceScore ≠
        PerfVal.score 0) ∧
    (run_with_backoff url device client retries).1.performanceScore ≠
      PerfVal.error ∧
    (run_with_backoff url device client retries).1.fcp =
      auditDisplay (extractedAudits data).firstContentfulPaint ∧
    (run_with_backoff url device client retries).1.lcp =
      auditDisplay (extractedAudits data).largestContentfulPaint ∧
    (run_with_backoff url device client retries).1.tbt =
      auditDisplay (extractedAudits data).totalBlockingTime ∧
    (run_with_backoff url device client retries).1.cls =
      auditDisplay (extractedAudits data).cumulativeLayoutShift := by
  unfold run_with_backoff goBackoff
  rw [h0]
  simp only [mkSuccessOutcome, extractedScore, extractedAudits, auditDisplay]
  refine ⟨?_, ?_, ?_, trivial, trivial, trivial, trivial⟩
  · intro q hq
    rw [hq]
    exact ⟨rfl, pyRound_nearest _⟩
  · intro hq
    rw [hq]
    simp
  · cases hsc : (((data.lighthouseResult.getD LighthouseResult.empty).categories.getD
      Categories.empty).performance.getD PerfCategory.empty).score <;> simp [hsc]

/-- Witness for C7: a response whose performance score is 0.87 yields the
score `pyRound (0.87 * 100)`. -/
theorem success_parsing_witness :
    (run_with_backoff "https://a.com" "mobile"
        (fun _ => Response.success
          ⟨some ⟨some ⟨some ⟨some (87 / 100)⟩⟩,
            some ⟨some ⟨some "1.2 s"⟩, some ⟨some "2.5 s"⟩, none,
              some ⟨none⟩⟩⟩⟩) 2).1.performanceScore =
      PerfVal.score (pyRound (87 / 100 * 100)) :=
  ((success_parsing "https://a.com" "mobile" _ 2
      ⟨some ⟨some ⟨some ⟨some (87 / 100)⟩⟩,
        some ⟨some ⟨some "1.2 s"⟩, some ⟨some "2.5 s"⟩, none,
          some ⟨none⟩⟩⟩⟩ rfl).1
    (87 / 100) rfl).1

/-- C8: the normalizer is the four-stage pipeline — drop blank-after-trim
lines, prepend "https://" to lines without an "http://"/"https://" prefix,
de-duplicate keeping first occurrences, keep only entries that parse with
an http/https scheme and a non-empty host — and on
["a.com", "https://a.com", "a.com"] it yields exactly ["https://a.com"];
a blank line is dropped. -/
theorem normalize_pipeline :
    (∀ raw, normalize_urls raw =
      (dedupeKeepFirst ((trimNonblank raw).map prependScheme)).filter
        (fun u => is_valid_url u)) ∧
    normalize_urls ["a.com".data, "https://a.com".data, "a.com".data] =
      ["https://a.com".data] ∧
    normalize_urls ["  ".data] = [] :=
  ⟨fun _ => rfl, by decide, by decide⟩

/-- C9: the normalizer is idempotent — applying the full pipeline to its own
output returns that output unchanged. -/
theorem normalize_idempotent (raw : List (List Char)) :
    normalize_urls (normalize_urls raw) = normalize_urls raw := by
  have hinv := fun u h => normalize_mem_invariants raw u h
  show (dedupeKeepFirst ((trimNonblank (normalize_urls raw)).map
      prependScheme)).filter (fun u => is_valid_url u) = normalize_urls raw
  rw [trimNonblank_eq_self _ (fun u h => ⟨(hinv u h).1, (hinv u h).2.1⟩)]
  rw [map_prependScheme_eq_self _ (fun u h => (hinv u h).2.2.1)]
  show (dedupeAux [] (normalize_urls raw)).filter (fun u => is_valid_url u) =
    normalize_urls raw
  rw [dedupeAux_eq_self [] _ (normalize_nodup raw) (by simp)]
  rw [List.filter_eq_self.mpr (fun u h => (hinv u h).2.2.2)]

/-- C10: the scheme-prefix test is case sensitive: "HTTP://x.com" is not
recognized as prefixed, so "https://" is prepended; the result parses with
scheme "https" and netloc "HTTP:" (non-empty), passes validation, and is
the normalizer's output for that line. -/
theorem scheme_case_sensitive :
    startsWithHttp ("HTTP://x.com".data) = false ∧
    normalize_urls ["HTTP://x.com".data] = ["https://HTTP://x.com".data] ∧
    pyUrlparse ("https://HTTP://x.com".data) =
      some ("https".data, "HTTP:".data) ∧
    is_valid_url ("https://HTTP://x.com".data) = true := by
  refine ⟨by decide, by decide, by decide, by decide⟩

end PageSpeed
